import Mathlib

/-!
Document storage service (`main.go`): shallow embedding.

The service is one Go file: an authentication guard and six HTTP handlers over two
external stores, a MongoDB collection of metadata records (`documentos`) and a GridFS
bucket of blobs.  The handlers are embedded as pure functions over an explicit `Store`;
the driver and token libraries are modelled by the small state machines below, and every
outcome the environment decides (clock, generated identifiers, which external call fails)
is an explicit field of `Env`.
-/

namespace Documentos

/-! ## Strings: `strings.HasPrefix`, `strings.TrimPrefix`, `strconv.ParseInt` -/

/-- Go `strings.HasPrefix(s, pre)`. -/
def HasPrefix (s pre : String) : Bool :=
  pre.data.isPrefixOf s.data

/-- Go `strings.TrimPrefix(s, pre)`: `s` without the leading `pre`, or `s` itself. -/
def TrimPrefix (s pre : String) : String :=
  if HasPrefix s pre then ⟨s.data.drop pre.data.length⟩ else s

/-- Value of a decimal digit. -/
def digitVal (c : Char) : Option Nat :=
  if '0' ≤ c ∧ c ≤ '9' then some (c.toNat - '0'.toNat) else none

/-- Accumulating base-10 reader: fails on the first character that is not a digit. -/
def parseDigits : Nat → List Char → Option Nat
  | acc, [] => some acc
  | acc, c :: cs =>
    match digitVal c with
    | none => none
    | some d => parseDigits (acc * 10 + d) cs

/-- Go `strconv.ParseUint(s, 10, 64)` before the range check: the empty string is a syntax
error. -/
def ParseUint (cs : List Char) : Option Nat :=
  match cs with
  | [] => none
  | _ => parseDigits 0 cs

/-- Go `strconv.ParseInt(s, 10, 64)`; `none` stands for `err != nil` (syntax or range). -/
def ParseInt (s : String) : Option Int :=
  match s.data with
  | [] => none
  | '+' :: cs =>
    match ParseUint cs with
    | none => none
    | some un => if un ≥ 2 ^ 63 then none else some (Int.ofNat un)
  | '-' :: cs =>
    match ParseUint cs with
    | none => none
    | some un => if un > 2 ^ 63 then none else some (- Int.ofNat un)
  | cs =>
    match ParseUint cs with
    | none => none
    | some un => if un ≥ 2 ^ 63 then none else some (Int.ofNat un)

/-! ## Object identifiers -/

/-- A `primitive.ObjectID`: twelve bytes, read as one big-endian number. -/
abbrev ObjectID := Nat

/-- Value of a hexadecimal digit (either case, as `encoding/hex` accepts). -/
def hexVal (c : Char) : Option Nat :=
  if '0' ≤ c ∧ c ≤ '9' then some (c.toNat - '0'.toNat)
  else if 'a' ≤ c ∧ c ≤ 'f' then some (c.toNat - 'a'.toNat + 10)
  else if 'A' ≤ c ∧ c ≤ 'F' then some (c.toNat - 'A'.toNat + 10)
  else none

/-- Accumulating base-16 reader. -/
def hexDecode : Nat → List Char → Option Nat
  | acc, [] => some acc
  | acc, c :: cs =>
    match hexVal c with
    | none => none
    | some d => hexDecode (acc * 16 + d) cs

/-- Driver `primitive.ObjectIDFromHex`: exactly 24 hexadecimal characters.  (Go compares the
byte length; a string that decodes is ASCII, so the character count decides the same.) -/
def ObjectIDFromHex (s : String) : Option ObjectID :=
  if s.data.length ≠ 24 then none else hexDecode 0 s.data

/-- Lower-case hexadecimal digit. -/
def hexChar (n : Nat) : Char :=
  if n < 10 then Char.ofNat (48 + n) else Char.ofNat (87 + n)

/-- The `k` low hexadecimal digits of `n`, most significant first. -/
def hexDigits : Nat → Nat → List Char
  | 0, _ => []
  | k + 1, n => hexDigits k (n / 16) ++ [hexChar (n % 16)]

/-- Driver `ObjectID.Hex()`: 24 lower-case hexadecimal characters. -/
def Hex (o : ObjectID) : String :=
  ⟨hexDigits 24 o⟩

/-! ## Data model -/

/-- Token claims (`type Claims`, lines 23-27): `sub`, `tipo` and the registered time claims
the token library validates. -/
structure Claims where
  Sub : Int
  Tipo : String
  ExpiresAt : Option Int
  NotBefore : Option Int
deriving DecidableEq, Repr

/-- Metadata record (`type DocMeta`, lines 29-38).  `DocIDHex` is not persisted
(`bson:"-"`); `DocID` is not rendered (`json:"-"`). -/
structure DocMeta where
  ID : ObjectID
  DocID : ObjectID
  DocIDHex : String
  Filename : String
  Size : Int
  IDCliente : Int
  IDExpediente : Int
  CreatedAt : Int
deriving DecidableEq, Repr

/-- A document of the GridFS files collection. -/
structure GridFile where
  id : ObjectID
  length : Nat
  filename : String
deriving DecidableEq, Repr

/-- A document of the GridFS chunks collection. -/
structure GridChunk where
  files_id : ObjectID
  n : Nat
  data : List Nat
deriving DecidableEq, Repr

/-- The GridFS bucket: its files collection and its chunks collection. -/
structure Bucket where
  files : List GridFile
  chunks : List GridChunk
deriving DecidableEq, Repr

/-- Everything the service persists: the blob store and the metadata index. -/
structure Store where
  bucket : Bucket
  coll : List DocMeta
deriving DecidableEq, Repr

/-- What the environment decides while one request is served: the clock, the identifiers
the driver generates, and which of the external calls report an error. -/
structure Env where
  now : Int
  newFileID : ObjectID
  newDocID : ObjectID
  findErr : Bool
  cursorErr : Bool
  countErr : Bool
  insertOneErr : Bool
  deleteOneErr : Bool
  openUploadErr : Bool
  readErr : Bool
  chunksInsertErr : Bool
  filesInsertErr : Bool
  filesDeleteErr : Bool
  chunksDeleteErr : Bool
  filesFindErr : Bool
  chunksFindErr : Bool
deriving DecidableEq, Repr

/-- An environment in which no external call fails. -/
def Env.calm (now : Int) (newFileID newDocID : ObjectID) : Env :=
  { now := now, newFileID := newFileID, newDocID := newDocID,
    findErr := false, cursorErr := false, countErr := false, insertOneErr := false,
    deleteOneErr := false, openUploadErr := false, readErr := false,
    chunksInsertErr := false, filesInsertErr := false, filesDeleteErr := false,
    chunksDeleteErr := false, filesFindErr := false, chunksFindErr := false }

/-- Response payloads the handlers produce.  `fileThenError` is a download that broke off
after bytes had been sent: the streamed bytes followed by the error object. -/
inductive Body where
  | empty
  | error (msg : String)
  | docs (out : List DocMeta)
  | uploaded (doc_id filename : String) (size id_expediente : Int)
  | file (disposition : String) (data : List Nat)
  | fileThenError (disposition : String) (data : List Nat) (msg : String)
deriving DecidableEq, Repr

/-- An HTTP response: status code and payload. -/
structure Response where
  status : Nat
  body : Body
deriving DecidableEq, Repr

/-- What the guard stores in the request context (`c.Set`, lines 185-186). -/
structure Ctx where
  id_cliente : Int
  tipo : String
deriving DecidableEq, Repr

/-! ## Metadata collection -/

/-- A `bson.M` query over the three fields the handlers ever filter on. -/
structure Filter where
  doc_id : Option ObjectID
  id_cliente : Option Int
  id_expediente : Option Int
deriving DecidableEq, Repr

/-- The empty query of the unrestricted listing (line 145). -/
def Filter.all : Filter :=
  { doc_id := none, id_cliente := none, id_expediente := none }

/-- Whether a record satisfies every field the query fixes. -/
def Filter.sat (f : Filter) (d : DocMeta) : Bool :=
  (match f.doc_id with
    | none => true
    | some o => decide (d.DocID = o)) &&
  (match f.id_cliente with
    | none => true
    | some s => decide (d.IDCliente = s)) &&
  (match f.id_expediente with
    | none => true
    | some k => decide (d.IDExpediente = k))

/-- Find options: the handlers always sort by `created_at` descending; limit and skip are
set only on some paths. -/
structure FindOptions where
  limit : Option Nat
  skip : Option Nat
deriving DecidableEq, Repr

/-- The order `created_at: -1`. -/
def newerEq (a b : DocMeta) : Prop :=
  a.CreatedAt ≥ b.CreatedAt

instance newerEq.dec : DecidableRel newerEq :=
  fun a b => inferInstanceAs (Decidable (a.CreatedAt ≥ b.CreatedAt))

/-- The sort `created_at: -1`: newest first.  The query fixes no order among records with
equal timestamps; the model keeps their stored order, and no statement about the listings
below depends on that choice (they use only that the result is a sorted permutation). -/
def sortDesc (l : List DocMeta) : List DocMeta :=
  l.insertionSort newerEq

/-- Collection `Find`: filter, sort descending, skip, limit. -/
def Find (coll : List DocMeta) (f : Filter) (o : FindOptions) : List DocMeta :=
  let sorted := sortDesc (coll.filter f.sat)
  let skipped :=
    match o.skip with
    | none => sorted
    | some k => sorted.drop k
  match o.limit with
  | none => skipped
  | some n => skipped.take n

/-- One pass of the cursor loop (line 158): `d.DocIDHex = d.DocID.Hex()`. -/
def withHex (d : DocMeta) : DocMeta :=
  { d with DocIDHex := Hex d.DocID }

/-- The cursor loop shared by the three listings (lines 152-160): every record is decoded
and its `DocIDHex` filled from `DocID`.  The collection holds typed records only, so `Decode`
does not fail and no record is skipped. -/
def decodeAll (cur : List DocMeta) : List DocMeta :=
  cur.map withHex

/-- Collection `CountDocuments`; the count is 0 when the call fails. -/
def CountDocuments (e : Env) (coll : List DocMeta) (f : Filter) : Nat :=
  if e.countErr then 0 else (coll.filter f.sat).length

/-- Collection `InsertOne`: the driver assigns `_id`; the insert fails on a store error and
on a duplicate key (`_id`, and `doc_id` under the unique index of lines 97-100). -/
def InsertOne (e : Env) (coll : List DocMeta) (doc : DocMeta) : Option (List DocMeta) :=
  if e.insertOneErr || coll.any (fun d => decide (d.DocID = doc.DocID))
      || coll.any (fun d => decide (d.ID = e.newDocID)) then none
  else some (coll ++ [{ doc with ID := e.newDocID }])

/-- Collection `DeleteOne`: the first matching record is removed; nothing on an error. -/
def DeleteOne (e : Env) (coll : List DocMeta) (f : Filter) : List DocMeta :=
  if e.deleteOneErr then coll else coll.eraseP f.sat

/-! ## Listings -/

/-- Running a query and rendering the cursor, as each listing does. -/
def listWith (e : Env) (coll : List DocMeta) (f : Filter) (o : FindOptions) : Response :=
  if e.findErr then ⟨500, .error "no se pudo listar"⟩
  else
    let out := decodeAll (Find coll f o)
    if e.cursorErr then ⟨500, .error "error en cursor"⟩
    else ⟨200, .docs out⟩

/-- `GET /mis-documentos` (lines 257-286). -/
def getMisDocumentos (e : Env) (st : Store) (c : Ctx) : Response :=
  let idCliente := c.id_cliente
  listWith e st.coll { Filter.all with id_cliente := some idCliente } ⟨none, none⟩

/-- The query of `GET /expedientes/:id_expediente/documentos` (lines 300-306). -/
def expedienteFilter (c : Ctx) (idExp : Int) : Filter :=
  let filter : Filter := { Filter.all with id_expediente := some idExp }
  if c.tipo = "CLIENTE" then { filter with id_cliente := some c.id_cliente } else filter

/-- `GET /expedientes/:id_expediente/documentos` (lines 289-333). -/
def getExpedienteDocumentos (e : Env) (st : Store) (c : Ctx) (idExpStr : String) : Response :=
  match ParseInt idExpStr with
  | none => ⟨400, .error "id_expediente inválido"⟩
  | some idExp =>
    if idExp ≤ 0 then ⟨400, .error "id_expediente inválido"⟩
    else listWith e st.coll (expedienteFilter c idExp) ⟨none, none⟩

/-! ## Token verification and the guard -/

/-- A decoded compact token: its claims and the HMAC key its signature verifies under. -/
structure SignedToken where
  claims : Claims
  signingKey : String
deriving DecidableEq, Repr

/-- Token library `jwt.ParseWithClaims` called on a fresh `Claims` value with the key function
of line 178; `none` stands for `err != nil || !token.Valid`.  `decode` is the decoding of the
compact serialisation (absent when the string is malformed); the signature must verify under
`key`, `exp` (when present) must lie after the clock and `nbf` (when present) not after it.
No other claim is inspected: `Claims` declares no validation of its own. -/
def ParseWithClaims (decode : String → Option SignedToken) (now : Int) (tokenStr key : String) :
    Option Claims :=
  match decode tokenStr with
  | none => none
  | some t =>
    if t.signingKey ≠ key then none
    else if (match t.claims.ExpiresAt with
        | none => false
        | some exp => decide (exp ≤ now)) then none
    else if (match t.claims.NotBefore with
        | none => false
        | some nbf => decide (now < nbf)) then none
    else some t.claims

/-- How the guard leaves a request: aborted with a response (`c.AbortWithStatusJSON`), or
passed on with the context it attached (`c.Set`, `c.Next`). -/
inductive Guarded where
  | abort (resp : Response)
  | next (c : Ctx)
deriving DecidableEq, Repr

/-- The guard `auth` (lines 170-188). -/
def auth (decode : String → Option SignedToken) (jwtSecret : String) (e : Env) (h : String) :
    Guarded :=
  if !HasPrefix h "Bearer " then .abort ⟨401, .error "token requerido"⟩
  else
    let tokenStr := TrimPrefix h "Bearer "
    match ParseWithClaims decode e.now tokenStr jwtSecret with
    | none => .abort ⟨401, .error "token inválido"⟩
    | some claims => .next ⟨claims.Sub, claims.Tipo⟩

/-! ## GridFS bucket -/

/-- Driver constant `UploadBufferSize`: 16 MiB. -/
def UploadBufferSize : Nat := 16 * 1024 * 1024

/-- Driver constant `DefaultChunkSize`: 255 KiB. -/
def DefaultChunkSize : Nat := 255 * 1024

/-- Driver `UploadStream`: the identifier is fixed when the stream is opened; written bytes
wait in `buffer` until a whole buffer, or `Close`, sends them to the chunks collection. -/
structure UploadStream where
  FileID : ObjectID
  filename : String
  chunkIndex : Nat
  closed : Bool
  buffer : List Nat
  fileLen : Nat
deriving DecidableEq, Repr

/-- Outcome of a stream operation: error flag, stream and bucket afterwards. -/
structure StreamResult where
  err : Bool
  us : UploadStream
  bucket : Bucket
deriving DecidableEq, Repr

/-- Driver `Bucket.OpenUploadStream(filename)`: a fresh identifier and an empty buffer;
nothing is stored yet. -/
def OpenUploadStream (e : Env) (filename : String) : Option UploadStream :=
  if e.openUploadErr then none
  else some { FileID := e.newFileID, filename := filename, chunkIndex := 0, closed := false,
              buffer := [], fileLen := 0 }

/-- The chunk documents cut from a buffer: `k` chunks of `size` bytes numbered from `idx`. -/
def chunkDocs (id : ObjectID) (size : Nat) : Nat → Nat → List Nat → List GridChunk
  | 0, _, _ => []
  | k + 1, idx, buf => ⟨id, idx, buf.take size⟩ :: chunkDocs id size k (idx + 1) (buf.drop size)

/-- Driver `uploadChunks(ctx, uploadPartial)`: whole chunks only, or also the trailing short
one; counters advance before `InsertMany`, the buffer keeps what was not sent. -/
def uploadChunks (e : Env) (b : Bucket) (us : UploadStream) (uploadPartial : Bool) :
    StreamResult :=
  let len := us.buffer.length
  let numChunks :=
    if uploadPartial then (len + DefaultChunkSize - 1) / DefaultChunkSize
    else len / DefaultChunkSize
  let sent := min len (numChunks * DefaultChunkSize)
  let docs := chunkDocs us.FileID DefaultChunkSize numChunks us.chunkIndex (us.buffer.take sent)
  let us1 := { us with chunkIndex := us.chunkIndex + numChunks, fileLen := us.fileLen + sent }
  if e.chunksInsertErr then ⟨true, us1, b⟩
  else ⟨false, { us1 with buffer := us.buffer.drop sent },
        { b with chunks := b.chunks ++ docs }⟩

/-- Driver `UploadStream.Write(p)`: bytes go to the buffer; each time the buffer is full its
whole chunks are uploaded. -/
def Write (e : Env) : Bucket → UploadStream → List Nat → StreamResult
  | b, us, [] => ⟨us.closed, us, b⟩
  | b, us, x :: p =>
    if us.closed then ⟨true, us, b⟩
    else
      let us1 := { us with buffer := us.buffer ++ [x] }
      if us1.buffer.length = UploadBufferSize then
        let r := uploadChunks e b us1 false
        if r.err then r else Write e r.bucket r.us p
      else Write e b us1 p

/-- Go `io.Copy(uploadStream, f)`: fails when reading the multipart file fails, or when a
write does. -/
def ioCopy (e : Env) (b : Bucket) (us : UploadStream) (content : List Nat) : StreamResult :=
  if e.readErr then ⟨true, us, b⟩ else Write e b us content

/-- Driver `UploadStream.Close()`: uploads what the buffer still holds, then creates the
files-collection document; only that document makes the blob readable.  Returns the error
flag and the bucket. -/
def Close (e : Env) (b : Bucket) (us : UploadStream) : Bool × Bucket :=
  if us.closed then (true, b)
  else
    let r : StreamResult :=
      if us.buffer.length ≠ 0 then uploadChunks e b us true else ⟨false, us, b⟩
    if r.err then (true, r.bucket)
    else if e.filesInsertErr || r.bucket.files.any (fun f => decide (f.id = us.FileID)) then
      (true, r.bucket)
    else
      (false, { r.bucket with
                files := r.bucket.files ++ [⟨us.FileID, r.us.fileLen, us.filename⟩] })

/-- Driver `Bucket.Delete(fileID)`: deletes the files-collection document (an error when the
call fails or nothing matched), and deletes the chunks in either case. -/
def Bucket.Delete (e : Env) (b : Bucket) (id : ObjectID) : Bool × Bucket :=
  let found := b.files.any (fun f => decide (f.id = id))
  let files1 := if e.filesDeleteErr then b.files else b.files.eraseP (fun f => decide (f.id = id))
  let chunks1 :=
    if e.chunksDeleteErr then b.chunks else b.chunks.filter (fun c => decide (c.files_id ≠ id))
  (e.filesDeleteErr || !found || e.chunksDeleteErr, ⟨files1, chunks1⟩)

/-- The order of the chunk cursor (`n: 1`). -/
def chunkLe (a b : GridChunk) : Prop :=
  a.n ≤ b.n

instance chunkLe.dec : DecidableRel chunkLe :=
  fun a b => inferInstanceAs (Decidable (a.n ≤ b.n))

/-- Outcome of a download: whether it ended in an error, and the bytes that had reached the
writer by then. -/
structure DownloadResult where
  err : Bool
  written : List Nat
deriving DecidableEq, Repr

/-- Driver `DownloadStream` reading the chunk cursor of a file of `fileLen` bytes in
`numChunks` chunks: chunk `expected` must carry that index and the right size (a whole chunk,
or the remainder for the last one); the bytes of every chunk read before an error have been
streamed; a cursor that ends early is an error. -/
def readChunks (fileLen numChunks : Nat) : Nat → List GridChunk → DownloadResult
  | expected, [] => ⟨decide (expected ≠ numChunks), []⟩
  | expected, c :: cs =>
    if c.n ≠ expected then ⟨true, []⟩
    else if expected + 1 = numChunks ∧ c.data.length ≠ fileLen - DefaultChunkSize * expected then
      ⟨true, []⟩
    else if expected + 1 ≠ numChunks ∧ c.data.length ≠ DefaultChunkSize then ⟨true, []⟩
    else
      let r := readChunks fileLen numChunks (expected + 1) cs
      ⟨r.err, c.data ++ r.written⟩

/-- Driver `Bucket.DownloadToStream(fileID, w)`: the files-collection document must exist
(nothing is streamed otherwise); an empty file has no chunks to read; else the chunks of the
file are read in index order and streamed as they pass the checks of `readChunks`.  Blobs are
written by this service only, so their chunk size is `DefaultChunkSize`. -/
def Bucket.DownloadToStream (e : Env) (b : Bucket) (id : ObjectID) : DownloadResult :=
  if e.filesFindErr then ⟨true, []⟩
  else
    match b.files.find? (fun f => decide (f.id = id)) with
    | none => ⟨true, []⟩
    | some f =>
      if f.length = 0 then ⟨false, []⟩
      else if e.chunksFindErr then ⟨true, []⟩
      else
        let cs := (b.chunks.filter (fun c => decide (c.files_id = id))).insertionSort chunkLe
        let numChunks := (f.length + DefaultChunkSize - 1) / DefaultChunkSize
        readChunks f.length numChunks 0 cs

/-! ## Upload, download, delete -/

/-- The `*multipart.FileHeader` fields the handler reads. -/
structure FileHeader where
  Filename : String
  Size : Int
deriving DecidableEq, Repr

/-- The form of `POST /documentos`: the outcome of `c.Request.FormFile("file")` (header and
content, absent on an error, which includes a body over the size cap of line 195) and the
field `id_expediente`. -/
structure UploadForm where
  file : Option (FileHeader × List Nat)
  id_expediente : String
deriving DecidableEq, Repr

/-- The record built at lines 233-240. -/
def mkDoc (e : Env) (oid : ObjectID) (header : FileHeader) (idCliente idExp : Int) : DocMeta :=
  { ID := 0, DocID := oid, DocIDHex := "", Filename := header.Filename, Size := header.Size,
    IDCliente := idCliente, IDExpediente := idExp, CreatedAt := e.now }

/-- Lines 225-253 of `POST /documentos`: the body that runs after `defer uploadStream.Close()`
was registered, up to its `return`.  Yields the response, the store at that moment, and the
stream the deferred `Close` will receive. -/
def postDocumentosBody (e : Env) (st : Store) (idCliente idExp : Int) (header : FileHeader)
    (content : List Nat) (uploadStream : UploadStream) : Response × Store × UploadStream :=
  let w := ioCopy e st.bucket uploadStream content
  if w.err then (⟨500, .error "falló escritura"⟩, { st with bucket := w.bucket }, w.us)
  else
    let oid := w.us.FileID
    let doc := mkDoc e oid header idCliente idExp
    match InsertOne e st.coll doc with
    | none =>
      let del := Bucket.Delete e w.bucket oid
      (⟨500, .error "no se pudo guardar metadatos"⟩, { st with bucket := del.2 }, w.us)
    | some coll1 =>
      (⟨200, .uploaded (Hex oid) header.Filename header.Size idExp⟩,
        { bucket := w.bucket, coll := coll1 }, w.us)

/-- `POST /documentos` (lines 194-254), deferred calls included: the response, and the store
once the handler has returned. -/
def postDocumentos (e : Env) (st : Store) (c : Ctx) (form : UploadForm) : Response × Store :=
  match form.file with
  | none => (⟨400, .error "file es requerido"⟩, st)
  | some (header, content) =>
    let idExpStr := form.id_expediente
    if idExpStr = "" then (⟨400, .error "id_expediente es requerido"⟩, st)
    else
      match ParseInt idExpStr with
      | none => (⟨400, .error "id_expediente inválido"⟩, st)
      | some idExp =>
        if idExp ≤ 0 then (⟨400, .error "id_expediente inválido"⟩, st)
        else
          let idCliente := c.id_cliente
          match OpenUploadStream e header.Filename with
          | none => (⟨500, .error "no se pudo abrir stream"⟩, st)
          | some uploadStream =>
            let r := postDocumentosBody e st idCliente idExp header content uploadStream
            (r.1, { r.2.1 with bucket := (Close e r.2.1.bucket r.2.2).2 })

/-- `GET /documentos/:doc_id` (lines 337-352).  The error branch of line 349 sets status 404
only while nothing has been written; once bytes have been streamed the response has left
with status 200 and the error object is appended to them. -/
def getDocumento (e : Env) (st : Store) (id : String) : Response :=
  match ObjectIDFromHex id with
  | none => ⟨400, .error "doc_id inválido"⟩
  | some oid =>
    let disposition := "attachment; filename=" ++ id ++ ".pdf"
    let r := Bucket.DownloadToStream e st.bucket oid
    if r.err then
      if r.written = [] then ⟨404, .error "no encontrado"⟩
      else ⟨200, .fileThenError disposition r.written "no encontrado"⟩
    else ⟨200, .file disposition r.written⟩

/-- `DELETE /documentos/:doc_id` (lines 356-381). -/
def deleteDocumento (e : Env) (st : Store) (c : Ctx) (id : String) : Response × Store :=
  match ObjectIDFromHex id with
  | none => (⟨400, .error "doc_id inválido"⟩, st)
  | some oid =>
    if c.tipo = "CLIENTE" ∧
        CountDocuments e st.coll
          { Filter.all with doc_id := some oid, id_cliente := some c.id_cliente } = 0 then
      (⟨403, .error "no autorizado"⟩, st)
    else
      let del := Bucket.Delete e st.bucket oid
      if del.1 then (⟨404, .error "no encontrado"⟩, { st with bucket := del.2 })
      else
        (⟨204, .empty⟩,
          { bucket := del.2,
            coll := DeleteOne e st.coll { Filter.all with doc_id := some oid } })

/-- A route of the group `api` (lines 190-191): the guard runs first; the handler runs only
with the context the guard attached. -/
def guarded (decode : String → Option SignedToken) (jwtSecret : String) (e : Env) (h : String)
    (st : Store) (handler : Ctx → Response × Store) : Response × Store :=
  match auth decode jwtSecret e h with
  | .abort resp => (resp, st)
  | .next c => handler c

/-! ## Order facts used by the sort -/

instance newerEq.total : IsTotal DocMeta newerEq :=
  ⟨fun a b => by unfold newerEq; omega⟩

instance newerEq.trans : IsTrans DocMeta newerEq :=
  ⟨fun a b c hab hbc => by unfold newerEq at *; omega⟩

/-! ## Sample data -/

/-- A record of owner 7 in case 1. -/
def sampleDocA : DocMeta :=
  ⟨1, 10, "", "a.pdf", 3, 7, 1, 100⟩

/-- A record of owner 8 in case 1, newer than `sampleDocA`. -/
def sampleDocB : DocMeta :=
  ⟨2, 11, "", "b.pdf", 2, 8, 1, 200⟩

/-- Two blobs with their records. -/
def sampleStore : Store :=
  { bucket := ⟨[⟨10, 3, "a.pdf"⟩, ⟨11, 2, "b.pdf"⟩], [⟨10, 0, [1, 2, 3]⟩, ⟨11, 0, [4, 5]⟩]⟩,
    coll := [sampleDocA, sampleDocB] }

/-- Five records of several owners and cases, in insertion order. -/
def sampleFive : Store :=
  { bucket := ⟨[], []⟩,
    coll := [⟨1, 10, "", "a.pdf", 3, 7, 1, 100⟩, ⟨2, 11, "", "b.pdf", 2, 8, 1, 500⟩,
             ⟨3, 12, "", "c.pdf", 1, 7, 2, 300⟩, ⟨4, 13, "", "d.pdf", 4, 9, 1, 400⟩,
             ⟨5, 14, "", "e.pdf", 5, 7, 1, 200⟩] }

/-- The hexadecimal form of the identifier 10 (blob of `sampleDocA`). -/
def hexA : String := "00000000000000000000000a"

/-- An empty store. -/
def emptyStore : Store :=
  { bucket := ⟨[], []⟩, coll := [] }

/-- A three-byte upload filed under case 5. -/
def sampleForm : UploadForm :=
  ⟨some (⟨"x.pdf", 3⟩, [1, 2, 3]), "5"⟩

/-- An environment whose metadata `DeleteOne` fails. -/
def envDeleteOneFails : Env :=
  { Env.calm 0 0 0 with deleteOneErr := true }

/-- An environment whose metadata `InsertOne` fails; the new blob gets identifier 12. -/
def envInsertFails : Env :=
  { Env.calm 50 12 3 with insertOneErr := true }

/-- An environment whose files-collection insert (inside `Close`) fails. -/
def envCloseFails : Env :=
  { Env.calm 50 12 3 with filesInsertErr := true }

/-- The hexadecimal form of the identifier 12. -/
def hexC : String := "00000000000000000000000c"

/-- The stream `OpenUploadStream` returns for `sampleForm` when the driver picks identifier 12. -/
def sampleStream : UploadStream :=
  { FileID := 12, filename := "x.pdf", chunkIndex := 0, closed := false, buffer := [],
    fileLen := 0 }

/-- The record the upload of `sampleForm` by subject 7 inserts at time 50. -/
def sampleDocC : DocMeta :=
  ⟨3, 12, "", "x.pdf", 3, 7, 5, 50⟩

/-- A token decoder that knows four token strings, all signed with the key `k`. -/
def sampleDecode (s : String) : Option SignedToken :=
  if s = "cliente8" then some ⟨⟨8, "CLIENTE", some 1000, none⟩, "k"⟩
  else if s = "norole" then some ⟨⟨8, "", some 1000, none⟩, "k"⟩
  else if s = "zero" then some ⟨⟨0, "ADMIN", some 1000, none⟩, "k"⟩
  else if s = "old" then some ⟨⟨8, "CLIENTE", some 10, none⟩, "k"⟩
  else none

end Documentos

namespace Documentos

/-! ## Sorting and query lemmas -/

theorem sortDesc_perm (l : List DocMeta) : (sortDesc l).Perm l :=
  List.perm_insertionSort newerEq l

theorem sortDesc_sorted (l : List DocMeta) : (sortDesc l).Sorted newerEq :=
  List.sorted_insertionSort newerEq l

theorem decodeAll_sorted (l : List DocMeta) (h : l.Sorted newerEq) :
    (decodeAll l).Sorted newerEq := by
  unfold decodeAll List.Sorted
  rw [List.pairwise_map]
  refine List.Pairwise.imp ?_ h
  intro a b hab
  simp only [newerEq, withHex] at *
  exact hab

theorem listWith_ok (e : Env) (coll : List DocMeta) (f : Filter) (o : FindOptions)
    (hfind : e.findErr = false) (hcur : e.cursorErr = false) :
    listWith e coll f o = ⟨200, .docs (decodeAll (Find coll f o))⟩ := by
  simp [listWith, hfind, hcur]

theorem Find_plain (coll : List DocMeta) (f : Filter) :
    Find coll f ⟨none, none⟩ = sortDesc (coll.filter f.sat) := by
  simp only [Find]

theorem expedienteFilter_sat_other (c : Ctx) (k : Int) (h : c.tipo ≠ "CLIENTE") :
    (expedienteFilter c k).sat = fun d => decide (d.IDExpediente = k) := by
  funext d
  simp [expedienteFilter, h, Filter.sat, Filter.all]

theorem expedienteFilter_sat_cliente (s k : Int) :
    (expedienteFilter ⟨s, "CLIENTE"⟩ k).sat
      = fun d => decide (d.IDExpediente = k ∧ d.IDCliente = s) := by
  funext d
  simp [expedienteFilter, Filter.sat, Filter.all, and_comm]

theorem getExpediente_ok (e : Env) (st : Store) (c : Ctx) (idExpStr : String) (k : Int)
    (hk : ParseInt idExpStr = some k) (hpos : 0 < k)
    (hfind : e.findErr = false) (hcur : e.cursorErr = false) :
    getExpedienteDocumentos e st c idExpStr
      = ⟨200, .docs (decodeAll (sortDesc (st.coll.filter (expedienteFilter c k).sat)))⟩ := by
  have hnot : ¬ k ≤ 0 := by omega
  simp only [getExpedienteDocumentos, hk, hnot, if_false]
  rw [listWith_ok e _ _ _ hfind hcur, Find_plain]

theorem withHex_IDCliente (d : DocMeta) : (withHex d).IDCliente = d.IDCliente := by
  simp only [withHex]

theorem withHex_DocID (d : DocMeta) : (withHex d).DocID = d.DocID := by
  simp only [withHex]

theorem withHex_IDExpediente (d : DocMeta) : (withHex d).IDExpediente = d.IDExpediente := by
  simp only [withHex]

theorem withHex_eq (r : DocMeta) : withHex r = { r with DocIDHex := Hex r.DocID } := by
  simp only [withHex]

theorem decodeAll_eq (l : List DocMeta) :
    decodeAll l = l.map (fun r => { r with DocIDHex := Hex r.DocID }) := by
  simp only [decodeAll]
  apply List.map_congr_left
  intro r _
  exact withHex_eq r

theorem filter_decodeAll (p : DocMeta → Bool) (hp : ∀ d, p (withHex d) = p d)
    (l : List DocMeta) : (decodeAll l).filter p = decodeAll (l.filter p) := by
  unfold decodeAll
  induction l with
  | nil => rfl
  | cons a t ih =>
    by_cases hpa : p a = true
    · have h1 : p (withHex a) = true := by rw [hp]; exact hpa
      rw [List.map_cons, List.filter_cons_of_pos h1, List.filter_cons_of_pos hpa, ih,
        List.map_cons]
    · have h1 : ¬ p (withHex a) = true := by rw [hp]; exact hpa
      rw [List.map_cons, List.filter_cons_of_neg h1, List.filter_cons_of_neg hpa, ih]

/-! ## Listings -/

/-- C2. Case listing: with a positive case id `k` and a working store, ADMIN and OPERADOR
receive exactly the stored records of case `k` (each rendered with its `doc_id`), CLIENTE
exactly the stored records of case `k` owned by the caller, both ordered by `created_at`
descending; the CLIENTE result holds the same records as the ADMIN result restricted to the
caller's owner id. -/
theorem case_listing_role_narrowing (e : Env) (st : Store) (s : Int) (idExpStr : String)
    (k : Int) (hk : ParseInt idExpStr = some k) (hpos : 0 < k)
    (hfind : e.findErr = false) (hcur : e.cursorErr = false) :
    ∃ outAll outOwn : List DocMeta,
      getExpedienteDocumentos e st ⟨s, "ADMIN"⟩ idExpStr = ⟨200, .docs outAll⟩ ∧
      getExpedienteDocumentos e st ⟨s, "OPERADOR"⟩ idExpStr = ⟨200, .docs outAll⟩ ∧
      getExpedienteDocumentos e st ⟨s, "CLIENTE"⟩ idExpStr = ⟨200, .docs outOwn⟩ ∧
      (∀ d ∈ outAll, d.IDExpediente = k ∧
        ∃ r ∈ st.coll, d = { r with DocIDHex := Hex r.DocID }) ∧
      (∀ r ∈ st.coll, r.IDExpediente = k → { r with DocIDHex := Hex r.DocID } ∈ outAll) ∧
      (∀ d ∈ outOwn, d.IDExpediente = k ∧ d.IDCliente = s ∧
        ∃ r ∈ st.coll, d = { r with DocIDHex := Hex r.DocID }) ∧
      (∀ r ∈ st.coll, r.IDExpediente = k → r.IDCliente = s →
        { r with DocIDHex := Hex r.DocID } ∈ outOwn) ∧
      outAll.Perm ((st.coll.filter (fun d => decide (d.IDExpediente = k))).map
        (fun r => { r with DocIDHex := Hex r.DocID })) ∧
      outOwn.Perm ((st.coll.filter
        (fun d => decide (d.IDExpediente = k ∧ d.IDCliente = s))).map
        (fun r => { r with DocIDHex := Hex r.DocID })) ∧
      outAll.Sorted newerEq ∧ outOwn.Sorted newerEq ∧
      outOwn.Perm (outAll.filter (fun d => decide (d.IDCliente = s))) := by
  have hpAll : (decodeAll (sortDesc (st.coll.filter (fun d => decide (d.IDExpediente = k))))).Perm
      (decodeAll (st.coll.filter (fun d => decide (d.IDExpediente = k)))) :=
    (sortDesc_perm _).map withHex
  have hpOwn : (decodeAll (sortDesc
      (st.coll.filter (fun d => decide (d.IDExpediente = k ∧ d.IDCliente = s))))).Perm
      (decodeAll (st.coll.filter (fun d => decide (d.IDExpediente = k ∧ d.IDCliente = s)))) :=
    (sortDesc_perm _).map withHex
  refine ⟨decodeAll (sortDesc (st.coll.filter (fun d => decide (d.IDExpediente = k)))),
    decodeAll (sortDesc
      (st.coll.filter (fun d => decide (d.IDExpediente = k ∧ d.IDCliente = s)))),
    ?_, ?_, ?_, ?_, ?_, ?_, ?_, ?_, ?_, ?_, ?_, ?_⟩
  · rw [getExpediente_ok e st _ idExpStr k hk hpos hfind hcur,
      expedienteFilter_sat_other _ k (by simp)]
  · rw [getExpediente_ok e st _ idExpStr k hk hpos hfind hcur,
      expedienteFilter_sat_other _ k (by simp)]
  · rw [getExpediente_ok e st _ idExpStr k hk hpos hfind hcur, expedienteFilter_sat_cliente]
  · intro d hd
    obtain ⟨r, hr, rfl⟩ := List.mem_map.mp (hpAll.mem_iff.mp hd)
    have hr2 := List.mem_filter.mp hr
    refine ⟨?_, r, hr2.1, withHex_eq r⟩
    rw [withHex_IDExpediente]
    simpa using hr2.2
  · intro r hr hcase
    rw [← withHex_eq r]
    exact hpAll.mem_iff.mpr
      (List.mem_map.mpr ⟨r, List.mem_filter.mpr ⟨hr, by simpa using hcase⟩, rfl⟩)
  · intro d hd
    obtain ⟨r, hr, rfl⟩ := List.mem_map.mp (hpOwn.mem_iff.mp hd)
    have hr2 := List.mem_filter.mp hr
    have hboth : r.IDExpediente = k ∧ r.IDCliente = s := by simpa using hr2.2
    refine ⟨?_, ?_, r, hr2.1, withHex_eq r⟩
    · rw [withHex_IDExpediente]; exact hboth.1
    · rw [withHex_IDCliente]; exact hboth.2
  · intro r hr hcase hown
    rw [← withHex_eq r]
    exact hpOwn.mem_iff.mpr
      (List.mem_map.mpr ⟨r, List.mem_filter.mpr ⟨hr, by simpa using ⟨hcase, hown⟩⟩, rfl⟩)
  · rw [← decodeAll_eq]
    exact hpAll
  · rw [← decodeAll_eq]
    exact hpOwn
  · exact decodeAll_sorted _ (sortDesc_sorted _)
  · exact decodeAll_sorted _ (sortDesc_sorted _)
  · rw [filter_decodeAll _ (fun d => by rw [withHex_IDCliente])]
    refine hpOwn.trans (List.Perm.map withHex ?_)
    refine List.Perm.trans ?_ ((sortDesc_perm _).filter _).symm
    rw [List.filter_filter]
    apply List.Perm.of_eq
    apply List.filter_congr
    intro d _
    simp [and_comm]

/-- Witness for C2: case 1 of the sample store, seen by owner 7. -/
theorem case_listing_role_narrowing_witness :
    ∃ outAll outOwn : List DocMeta,
      getExpedienteDocumentos (Env.calm 0 0 0) sampleStore ⟨7, "ADMIN"⟩ "1"
        = ⟨200, .docs outAll⟩ ∧
      getExpedienteDocumentos (Env.calm 0 0 0) sampleStore ⟨7, "OPERADOR"⟩ "1"
        = ⟨200, .docs outAll⟩ ∧
      getExpedienteDocumentos (Env.calm 0 0 0) sampleStore ⟨7, "CLIENTE"⟩ "1"
        = ⟨200, .docs outOwn⟩ ∧
      (∀ d ∈ outAll, d.IDExpediente = 1 ∧
        ∃ r ∈ sampleStore.coll, d = { r with DocIDHex := Hex r.DocID }) ∧
      (∀ r ∈ sampleStore.coll, r.IDExpediente = 1 →
        { r with DocIDHex := Hex r.DocID } ∈ outAll) ∧
      (∀ d ∈ outOwn, d.IDExpediente = 1 ∧ d.IDCliente = 7 ∧
        ∃ r ∈ sampleStore.coll, d = { r with DocIDHex := Hex r.DocID }) ∧
      (∀ r ∈ sampleStore.coll, r.IDExpediente = 1 → r.IDCliente = 7 →
        { r with DocIDHex := Hex r.DocID } ∈ outOwn) ∧
      outAll.Perm ((sampleStore.coll.filter (fun d => decide (d.IDExpediente = 1))).map
        (fun r => { r with DocIDHex := Hex r.DocID })) ∧
      outOwn.Perm ((sampleStore.coll.filter
        (fun d => decide (d.IDExpediente = 1 ∧ d.IDCliente = 7))).map
        (fun r => { r with DocIDHex := Hex r.DocID })) ∧
      outAll.Sorted newerEq ∧ outOwn.Sorted newerEq ∧
      outOwn.Perm (outAll.filter (fun d => decide (d.IDCliente = 7))) :=
  case_listing_role_narrowing (Env.calm 0 0 0) sampleStore 7 "1" 1 (by decide) (by decide)
    rfl rfl

/-- C3. Self listing: with a working store the caller receives exactly the stored records
whose owner id is the caller's subject id, every one of them, ordered by `created_at`
descending. -/
theorem self_listing_tenant_isolation (e : Env) (st : Store) (c : Ctx)
    (hfind : e.findErr = false) (hcur : e.cursorErr = false) :
    ∃ out : List DocMeta,
      getMisDocumentos e st c = ⟨200, .docs out⟩ ∧
      (∀ d ∈ out, d.IDCliente = c.id_cliente) ∧
      (∀ r ∈ st.coll, r.IDCliente = c.id_cliente → withHex r ∈ out) ∧
      out.Perm (decodeAll (st.coll.filter (fun d => decide (d.IDCliente = c.id_cliente)))) ∧
      out.Sorted newerEq := by
  have hsat : (({ Filter.all with id_cliente := some c.id_cliente } : Filter)).sat
      = fun d => decide (d.IDCliente = c.id_cliente) := by
    funext d
    simp [Filter.sat, Filter.all]
  have hperm : (decodeAll (sortDesc
      (st.coll.filter (fun d => decide (d.IDCliente = c.id_cliente))))).Perm
      (decodeAll (st.coll.filter (fun d => decide (d.IDCliente = c.id_cliente)))) :=
    (sortDesc_perm _).map withHex
  refine ⟨decodeAll (sortDesc (st.coll.filter (fun d => decide (d.IDCliente = c.id_cliente)))),
    ?_, ?_, ?_, hperm, decodeAll_sorted _ (sortDesc_sorted _)⟩
  · simp only [getMisDocumentos]
    rw [listWith_ok e _ _ _ hfind hcur, Find_plain, hsat]
  · intro d hd
    have hd1 := hperm.mem_iff.mp hd
    obtain ⟨r, hr, rfl⟩ := List.mem_map.mp hd1
    rw [withHex_IDCliente]
    simpa using (List.mem_filter.mp hr).2
  · intro r hr hown
    apply hperm.mem_iff.mpr
    exact List.mem_map.mpr ⟨r, List.mem_filter.mpr ⟨hr, by simpa using hown⟩, rfl⟩

/-- Witness for C3: owner 7 lists the five-record sample. -/
theorem self_listing_tenant_isolation_witness :
    ∃ out : List DocMeta,
      getMisDocumentos (Env.calm 0 0 0) sampleFive ⟨7, "CLIENTE"⟩ = ⟨200, .docs out⟩ ∧
      (∀ d ∈ out, d.IDCliente = 7) ∧
      (∀ r ∈ sampleFive.coll, r.IDCliente = 7 → withHex r ∈ out) ∧
      out.Perm (decodeAll (sampleFive.coll.filter (fun d => decide (d.IDCliente = 7)))) ∧
      out.Sorted newerEq :=
  self_listing_tenant_isolation (Env.calm 0 0 0) sampleFive ⟨7, "CLIENTE"⟩ rfl rfl

theorem eraseP_key_absent {α : Type} (f : α → Nat) (b : Nat) (l : List α)
    (h : (l.map f).Nodup) : ∀ x ∈ l.eraseP (fun y => decide (f y = b)), f x ≠ b := by
  induction l with
  | nil => intro x hx; cases hx
  | cons a t ih =>
    rw [List.map_cons, List.nodup_cons] at h
    by_cases hab : f a = b
    · rw [List.eraseP_cons_of_pos (by simpa using hab)]
      intro x hx hxb
      apply h.1
      rw [hab, ← hxb]
      exact List.mem_map_of_mem f hx
    · rw [List.eraseP_cons_of_neg (by simpa using hab)]
      intro x hx
      rcases List.mem_cons.mp hx with rfl | hxt
      · exact hab
      · exact ih h.2 x hxt

theorem deleteDocumento_204 (e : Env) (st : Store) (c : Ctx) (id : String) (b : ObjectID)
    (hid : ObjectIDFromHex id = some b)
    (hok : (deleteDocumento e st c id).1.status = 204) :
    (Bucket.Delete e st.bucket b).1 = false ∧
    (deleteDocumento e st c id).2
      = { bucket := (Bucket.Delete e st.bucket b).2,
          coll := DeleteOne e st.coll { Filter.all with doc_id := some b } } := by
  simp only [deleteDocumento, hid] at hok ⊢
  split at hok
  · simp at hok
  · rename_i hno
    rw [if_neg hno]
    split at hok
    · simp at hok
    · rename_i hdel
      rw [if_neg hdel]
      exact ⟨by simpa using hdel, rfl⟩

theorem Bucket.Delete_ok (e : Env) (bk : Bucket) (b : ObjectID)
    (h : (Bucket.Delete e bk b).1 = false) :
    (Bucket.Delete e bk b).2
      = ⟨bk.files.eraseP (fun f => decide (f.id = b)),
         bk.chunks.filter (fun c => decide (c.files_id ≠ b))⟩ := by
  simp only [Bucket.Delete, Bool.or_eq_false_iff] at h ⊢
  obtain ⟨⟨h1, _⟩, h3⟩ := h
  simp [h1, h3]

theorem download_absent (e : Env) (bk : Bucket) (b : ObjectID)
    (h : ∀ f ∈ bk.files, f.id ≠ b) : Bucket.DownloadToStream e bk b = ⟨true, []⟩ := by
  have hfind : bk.files.find? (fun f => decide (f.id = b)) = none := by
    apply List.find?_eq_none.mpr
    intro f hf
    simpa using h f hf
  unfold Bucket.DownloadToStream
  rw [hfind]
  simp

theorem Find_subset (coll : List DocMeta) (f : Filter) (o : FindOptions) :
    ∀ d ∈ Find coll f o, d ∈ coll ∧ f.sat d = true := by
  intro d hd
  have hskip : d ∈ sortDesc (coll.filter f.sat) := by
    unfold Find at hd
    cases hs : o.skip <;> cases hl : o.limit <;> simp only [hs, hl] at hd
    · exact hd
    · exact List.mem_of_mem_take hd
    · exact List.mem_of_mem_drop hd
    · exact List.mem_of_mem_drop (List.mem_of_mem_take hd)
  exact List.mem_filter.mp ((sortDesc_perm _).mem_iff.mp hskip)

theorem listWith_docs_mem (e : Env) (coll : List DocMeta) (f : Filter) (o : FindOptions)
    (out : List DocMeta) (h : listWith e coll f o = ⟨200, .docs out⟩) :
    ∀ d ∈ out, ∃ r ∈ coll, f.sat r = true ∧ d = withHex r := by
  unfold listWith at h
  split at h
  · simp at h
  · split at h
    · simp at h
    · simp only [Response.mk.injEq, Body.docs.injEq, true_and] at h
      intro d hd
      rw [← h] at hd
      obtain ⟨r, hr, rfl⟩ := List.mem_map.mp hd
      exact ⟨r, (Find_subset coll f o r hr).1, (Find_subset coll f o r hr).2, rfl⟩

/-- C1. Delete by a CLIENTE who owns no record of the blob: whatever the store answers, the
handler replies 403 and the blob store and the metadata index are returned unchanged. -/
theorem delete_cliente_nonowner_forbidden (e : Env) (st : Store) (s : Int) (id : String)
    (b : ObjectID) (hid : ObjectIDFromHex id = some b)
    (hnone : ∀ d ∈ st.coll, ¬ (d.DocID = b ∧ d.IDCliente = s)) :
    deleteDocumento e st ⟨s, "CLIENTE"⟩ id = (⟨403, .error "no autorizado"⟩, st) := by
  have hcount : CountDocuments e st.coll
      { Filter.all with doc_id := some b, id_cliente := some s } = 0 := by
    unfold CountDocuments
    split
    · rfl
    · rw [List.length_eq_zero, List.filter_eq_nil_iff]
      intro d hd
      have := hnone d hd
      simpa [Filter.sat, Filter.all] using this
  simp only [deleteDocumento, hid]
  rw [if_pos ⟨trivial, hcount⟩]

/-- Witness for C1: owner 8 tries to delete the blob of owner 7. -/
theorem delete_cliente_nonowner_forbidden_witness :
    deleteDocumento (Env.calm 0 0 0) sampleStore ⟨8, "CLIENTE"⟩ hexA
      = (⟨403, .error "no autorizado"⟩, sampleStore) :=
  delete_cliente_nonowner_forbidden (Env.calm 0 0 0) sampleStore 8 hexA 10 (by decide)
    (by decide)

/-- C10, as stated, fails: when the metadata `DeleteOne` fails the handler still answers 204,
the record of the deleted blob stays in the index and the owner's listing still shows it. -/
theorem delete_success_keeps_record_when_metadata_delete_fails :
    ObjectIDFromHex hexA = some sampleDocA.DocID ∧
    (deleteDocumento envDeleteOneFails sampleStore ⟨1, "ADMIN"⟩ hexA).1 = ⟨204, .empty⟩ ∧
    sampleDocA ∈ (deleteDocumento envDeleteOneFails sampleStore ⟨1, "ADMIN"⟩ hexA).2.coll ∧
    getMisDocumentos (Env.calm 0 0 0)
        (deleteDocumento envDeleteOneFails sampleStore ⟨1, "ADMIN"⟩ hexA).2 ⟨7, "CLIENTE"⟩
      = ⟨200, .docs [withHex sampleDocA]⟩ := by
  decide

/-- C10, amended. When delete answers 204 the blob is gone (no files document, no chunk, and
every later download answers 404); if moreover the metadata delete did not fail, no record
of the blob remains and no later self or case listing contains one. -/
theorem delete_success_removes_blob (e : Env) (st : Store) (c : Ctx) (id : String)
    (b : ObjectID) (hid : ObjectIDFromHex id = some b)
    (hfiles : (st.bucket.files.map (fun f => f.id)).Nodup)
    (hdocs : (st.coll.map (fun d => d.DocID)).Nodup)
    (hok : (deleteDocumento e st c id).1.status = 204) :
    (∀ f ∈ (deleteDocumento e st c id).2.bucket.files, f.id ≠ b) ∧
    (∀ ch ∈ (deleteDocumento e st c id).2.bucket.chunks, ch.files_id ≠ b) ∧
    (∀ e1 : Env,
      getDocumento e1 (deleteDocumento e st c id).2 id = ⟨404, .error "no encontrado"⟩) ∧
    (e.deleteOneErr = false →
      (∀ d ∈ (deleteDocumento e st c id).2.coll, d.DocID ≠ b) ∧
      (∀ (e1 : Env) (c1 : Ctx) (out : List DocMeta),
        getMisDocumentos e1 (deleteDocumento e st c id).2 c1 = ⟨200, .docs out⟩ →
        ∀ d ∈ out, d.DocID ≠ b) ∧
      (∀ (e1 : Env) (c1 : Ctx) (x : String) (out : List DocMeta),
        getExpedienteDocumentos e1 (deleteDocumento e st c id).2 c1 x = ⟨200, .docs out⟩ →
        ∀ d ∈ out, d.DocID ≠ b)) := by
  obtain ⟨hdel, hst⟩ := deleteDocumento_204 e st c id b hid hok
  rw [hst, Bucket.Delete_ok e st.bucket b hdel]
  have hF : ∀ f ∈ st.bucket.files.eraseP (fun f => decide (f.id = b)), f.id ≠ b :=
    eraseP_key_absent (fun f : GridFile => f.id) b _ hfiles
  refine ⟨hF, ?_, ?_, ?_⟩
  · intro ch hch
    simpa using (List.mem_filter.mp hch).2
  · intro e1
    simp only [getDocumento, hid]
    rw [download_absent e1 _ b hF]
    simp
  · intro hmeta
    have hsat : (({ Filter.all with doc_id := some b } : Filter)).sat
        = fun d => decide (d.DocID = b) := by
      funext d
      simp [Filter.sat, Filter.all]
    have hC : ∀ d ∈ DeleteOne e st.coll { Filter.all with doc_id := some b }, d.DocID ≠ b := by
      unfold DeleteOne
      rw [hmeta, hsat]
      exact eraseP_key_absent (fun d : DocMeta => d.DocID) b _ hdocs
    refine ⟨hC, ?_, ?_⟩
    · intro e1 c1 out hout d hd
      obtain ⟨r, hr, _, rfl⟩ := listWith_docs_mem e1 _ _ _ out hout d hd
      rw [withHex_DocID]
      exact hC r hr
    · intro e1 c1 x out hout d hd
      unfold getExpedienteDocumentos at hout
      split at hout
      · simp at hout
      · split at hout
        · simp at hout
        · obtain ⟨r, hr, _, rfl⟩ := listWith_docs_mem e1 _ _ _ out hout d hd
          rw [withHex_DocID]
          exact hC r hr

/-- Witness for C10 (amended): an ADMIN deletes the blob of `sampleDocA`. -/
theorem delete_success_removes_blob_witness :
    (deleteDocumento (Env.calm 0 0 0) sampleStore ⟨1, "ADMIN"⟩ hexA).1.status = 204 ∧
    ∀ e1 : Env,
      getDocumento e1 (deleteDocumento (Env.calm 0 0 0) sampleStore ⟨1, "ADMIN"⟩ hexA).2 hexA
        = ⟨404, .error "no encontrado"⟩ :=
  ⟨by decide,
    (delete_success_removes_blob (Env.calm 0 0 0) sampleStore ⟨1, "ADMIN"⟩ hexA 10
      (by decide) (by decide) (by decide) (by decide)).2.2.1⟩

/-! ## The guard -/

theorem auth_error (decode : String → Option SignedToken) (secret : String) (e : Env)
    (h : String) (r : Response) (H : auth decode secret e h = .abort r) :
    r = if HasPrefix h "Bearer " then ⟨401, .error "token inválido"⟩
        else ⟨401, .error "token requerido"⟩ := by
  unfold auth at H
  cases hp : HasPrefix h "Bearer "
  · simp [hp] at H
    simp [← H]
  · simp only [hp, Bool.not_true, Bool.false_eq_true, if_false, if_true] at H ⊢
    split at H
    · simp only [Guarded.abort.injEq] at H
      exact H.symm
    · simp at H

/-- C8, as stated, fails: a missing header and a malformed token are both rejected with 401
but with different messages. -/
theorem guard_rejections_not_uniform :
    auth sampleDecode "k" (Env.calm 50 0 0) "" = .abort ⟨401, .error "token requerido"⟩ ∧
    auth sampleDecode "k" (Env.calm 50 0 0) "Bearer junk"
      = .abort ⟨401, .error "token inválido"⟩ ∧
    auth sampleDecode "k" (Env.calm 50 0 0) ""
      ≠ auth sampleDecode "k" (Env.calm 50 0 0) "Bearer junk" := by
  decide

/-- C8, amended. Every rejection by the guard has status 401; the message is
`token requerido` when the header lacks the `Bearer ` prefix (a missing header included) and
`token inválido` for every failure of the token itself (malformed, bad signature, expired),
so two rejections of the same group are identical. -/
theorem guard_rejection_messages (decode : String → Option SignedToken) (secret : String)
    (e1 e2 : Env) (h1 h2 : String) (r1 r2 : Response)
    (H1 : auth decode secret e1 h1 = .abort r1) (H2 : auth decode secret e2 h2 = .abort r2) :
    r1.status = 401 ∧ r2.status = 401 ∧
    (HasPrefix h1 "Bearer " = false → r1 = ⟨401, .error "token requerido"⟩) ∧
    (HasPrefix h1 "Bearer " = true → r1 = ⟨401, .error "token inválido"⟩) ∧
    (HasPrefix h1 "Bearer " = HasPrefix h2 "Bearer " → r1 = r2) := by
  have E1 := auth_error decode secret e1 h1 r1 H1
  have E2 := auth_error decode secret e2 h2 r2 H2
  refine ⟨?_, ?_, ?_, ?_, ?_⟩
  · rw [E1]; split <;> rfl
  · rw [E2]; split <;> rfl
  · intro hp; rw [E1, hp]; rfl
  · intro hp; rw [E1, hp]; rfl
  · intro hp; rw [E1, E2, hp]

/-- Witness for C8 (amended): an expired token and a malformed one get the same response. -/
theorem guard_rejection_messages_witness :
    auth sampleDecode "k" (Env.calm 50 0 0) "Bearer old"
      = .abort ⟨401, .error "token inválido"⟩ ∧
    auth sampleDecode "k" (Env.calm 50 0 0) "Bearer junk"
      = .abort ⟨401, .error "token inválido"⟩ ∧
    (⟨401, .error "token inválido"⟩ : Response).status = 401 :=
  ⟨by decide, by decide,
    (guard_rejection_messages sampleDecode "k" (Env.calm 50 0 0) (Env.calm 50 0 0)
      "Bearer old" "Bearer junk" ⟨401, .error "token inválido"⟩
      ⟨401, .error "token inválido"⟩ (by decide) (by decide)).1⟩

theorem ParseWithClaims_some (decode : String → Option SignedToken) (now : Int)
    (tokenStr key : String) (cl : Claims) (H : ParseWithClaims decode now tokenStr key = some cl) :
    ∃ t, decode tokenStr = some t ∧ t.signingKey = key ∧
      (∀ x, t.claims.ExpiresAt = some x → now < x) ∧
      (∀ x, t.claims.NotBefore = some x → x ≤ now) ∧ cl = t.claims := by
  unfold ParseWithClaims at H
  split at H
  · cases H
  · rename_i t ht
    split at H
    · cases H
    · rename_i hkey
      split at H
      · cases H
      · rename_i hexp
        split at H
        · cases H
        · rename_i hnbf
          refine ⟨t, ht, by simpa using hkey, ?_, ?_, by simpa using H.symm⟩
          · intro x hx
            rw [hx] at hexp
            simp only [decide_eq_true_eq] at hexp
            omega
          · intro x hx
            rw [hx] at hnbf
            simp only [decide_eq_true_eq] at hnbf
            omega

theorem ParseWithClaims_valid (decode : String → Option SignedToken) (now : Int)
    (tokenStr key : String) (t : SignedToken) (hd : decode tokenStr = some t)
    (hs : t.signingKey = key) (hexp : ∀ x, t.claims.ExpiresAt = some x → now < x)
    (hnbf : ∀ x, t.claims.NotBefore = some x → x ≤ now) :
    ParseWithClaims decode now tokenStr key = some t.claims := by
  have h1 : (match t.claims.ExpiresAt with
      | none => false
      | some exp => decide (exp ≤ now)) = false := by
    cases hx : t.claims.ExpiresAt with
    | none => rfl
    | some x => have := hexp x hx; simp; omega
  have h2 : (match t.claims.NotBefore with
      | none => false
      | some nbf => decide (now < nbf)) = false := by
    cases hx : t.claims.NotBefore with
    | none => rfl
    | some x => have := hnbf x hx; simp; omega
  simp only [ParseWithClaims, hd, hs, ne_eq, not_true_eq_false, if_false, h1, h2,
    Bool.false_eq_true]

/-- C7, as stated, fails: a correctly signed, unexpired token whose role is the empty string
passes the guard with that role, deletes a blob owned by another subject and lists the
records of every owner of a case. -/
theorem guard_accepts_unknown_role :
    auth sampleDecode "k" (Env.calm 50 0 0) "Bearer norole" = .next ⟨8, ""⟩ ∧
    ("" : String) ∉ ["CLIENTE", "ADMIN", "OPERADOR"] ∧
    sampleDocA.IDCliente = 7 ∧ ObjectIDFromHex hexA = some sampleDocA.DocID ∧
    (guarded sampleDecode "k" (Env.calm 50 0 0) "Bearer norole" sampleStore
      (fun c => deleteDocumento (Env.calm 50 0 0) sampleStore c hexA)).1 = ⟨204, .empty⟩ ∧
    (guarded sampleDecode "k" (Env.calm 50 0 0) "Bearer norole" sampleStore
      (fun c => (getExpedienteDocumentos (Env.calm 50 0 0) sampleStore c "1", sampleStore))).1
      = ⟨200, .docs [withHex sampleDocB, withHex sampleDocA]⟩ := by
  decide

/-- C7, amended. The guard attaches the role claim of the credential as it is: an accepted
credential carries a decodable token, signed with the server secret and within its validity
period (not expired, not before `nbf`), whose subject and role are the ones put in the
context; every such token is accepted whatever its role string; in case listing and delete
only the exact role `CLIENTE` is narrowed or ownership-checked, every other role string is
served as `ADMIN` is. -/
theorem guard_attaches_role_unvalidated (decode : String → Option SignedToken)
    (secret : String) (e : Env) (h : String) :
    (∀ c : Ctx, auth decode secret e h = .next c →
      ∃ t, HasPrefix h "Bearer " = true ∧ decode (TrimPrefix h "Bearer ") = some t ∧
        t.signingKey = secret ∧
        (∀ x, t.claims.ExpiresAt = some x → e.now < x) ∧
        (∀ x, t.claims.NotBefore = some x → x ≤ e.now) ∧
        c = ⟨t.claims.Sub, t.claims.Tipo⟩) ∧
    (∀ t : SignedToken, HasPrefix h "Bearer " = true →
      decode (TrimPrefix h "Bearer ") = some t → t.signingKey = secret →
      (∀ x, t.claims.ExpiresAt = some x → e.now < x) →
      (∀ x, t.claims.NotBefore = some x → x ≤ e.now) →
      auth decode secret e h = .next ⟨t.claims.Sub, t.claims.Tipo⟩) ∧
    (∀ (e1 : Env) (st : Store) (s : Int) (role x : String), role ≠ "CLIENTE" →
      getExpedienteDocumentos e1 st ⟨s, role⟩ x = getExpedienteDocumentos e1 st ⟨s, "ADMIN"⟩ x ∧
      deleteDocumento e1 st ⟨s, role⟩ x = deleteDocumento e1 st ⟨s, "ADMIN"⟩ x) := by
  refine ⟨?_, ?_, ?_⟩
  · intro c H
    unfold auth at H
    cases hp : HasPrefix h "Bearer "
    · simp [hp] at H
    · simp only [hp, Bool.not_true, Bool.false_eq_true, if_false] at H
      split at H
      · cases H
      · rename_i cl hcl
        obtain ⟨t, ht, hkey, hexp, hnbf, rfl⟩ :=
          ParseWithClaims_some decode e.now _ secret cl hcl
        refine ⟨t, rfl, ht, hkey, hexp, hnbf, ?_⟩
        simp only [Guarded.next.injEq] at H
        exact H.symm
  · intro t hp hd hs hexp hnbf
    unfold auth
    simp only [hp, Bool.not_true, Bool.false_eq_true, if_false]
    rw [ParseWithClaims_valid decode e.now _ secret t hd hs hexp hnbf]
  · intro e1 st s role x hrole
    have hadmin : ¬ ("ADMIN" = "CLIENTE") := by decide
    constructor
    · simp only [getExpedienteDocumentos, expedienteFilter, hrole, hadmin, if_false]
    · simp only [deleteDocumento, hrole, hadmin, false_and, if_false]

/-- Witness for C7 (amended): at clock 50 the token `norole` (expiry 1000) is accepted with
its empty role, and the token `old` (expiry 10) is accepted under no context. -/
theorem guard_attaches_role_unvalidated_witness :
    auth sampleDecode "k" (Env.calm 50 0 0) "Bearer norole" = .next ⟨8, ""⟩ ∧
    ∀ c : Ctx, auth sampleDecode "k" (Env.calm 50 0 0) "Bearer old" ≠ .next c :=
  ⟨(guard_attaches_role_unvalidated sampleDecode "k" (Env.calm 50 0 0) "Bearer norole").2.1
      ⟨⟨8, "", some 1000, none⟩, "k"⟩ (by decide) (by decide) rfl
      (by intro x hx; cases hx; decide) (by intro x hx; cases hx),
    fun c H => by
      obtain ⟨t, _, hd, _, hexp, _, _⟩ :=
        (guard_attaches_role_unvalidated sampleDecode "k" (Env.calm 50 0 0) "Bearer old").1 c H
      have hold : sampleDecode (TrimPrefix "Bearer old" "Bearer ")
          = some ⟨⟨8, "CLIENTE", some 10, none⟩, "k"⟩ := by decide
      rw [hold] at hd
      cases hd
      exact absurd (hexp 10 rfl) (by decide)⟩

/-! ## Upload -/

theorem InsertOne_some (e : Env) (coll : List DocMeta) (doc : DocMeta) (coll1 : List DocMeta)
    (h : InsertOne e coll doc = some coll1) :
    coll1 = coll ++ [{ doc with ID := e.newDocID }] := by
  unfold InsertOne at h
  split at h
  · cases h
  · simp only [Option.some.injEq] at h
    exact h.symm

theorem postDocumentosBody_coll (e : Env) (st : Store) (idCliente idExp : Int)
    (header : FileHeader) (content : List Nat) (us : UploadStream) :
    ∀ d ∈ (postDocumentosBody e st idCliente idExp header content us).2.1.coll,
      d ∈ st.coll ∨ (d.IDCliente = idCliente ∧ d.IDExpediente = idExp) := by
  intro d hd
  unfold postDocumentosBody at hd
  simp only at hd
  split at hd
  · exact Or.inl hd
  · split at hd
    · exact Or.inl hd
    · rename_i coll1 hins
      rw [InsertOne_some e _ _ coll1 hins] at hd
      rcases List.mem_append.mp hd with h1 | h1
      · exact Or.inl h1
      · rw [List.mem_singleton] at h1
        right
        rw [h1]
        simp [mkDoc]

/-- C6, as stated, fails: a token whose subject id is 0 passes the guard and its upload is
stored, with owner id 0 in the inserted record. -/
theorem upload_records_nonpositive_owner :
    auth sampleDecode "k" (Env.calm 50 12 3) "Bearer zero" = .next ⟨0, "ADMIN"⟩ ∧
    (guarded sampleDecode "k" (Env.calm 50 12 3) "Bearer zero" sampleStore
      (fun c => postDocumentos (Env.calm 50 12 3) sampleStore c sampleForm)).1
      = ⟨200, .uploaded hexC "x.pdf" 3 5⟩ ∧
    (guarded sampleDecode "k" (Env.calm 50 12 3) "Bearer zero" sampleStore
      (fun c => postDocumentos (Env.calm 50 12 3) sampleStore c sampleForm)).2.coll
      = sampleStore.coll ++ [⟨3, 12, "", "x.pdf", 3, 0, 5, 50⟩] := by
  decide

/-- C6, amended. An upload whose case id is absent, not a decimal integer, or not positive is
answered 400 with the blob store and the metadata index untouched; every record the upload
handler inserts has a positive case id, the one parsed from the form, and as owner id the
subject id of the caller, recorded as it is. -/
theorem upload_checks_case_id (e : Env) (st : Store) (c : Ctx) (form : UploadForm) :
    ((form.id_expediente = "" ∨ ParseInt form.id_expediente = none ∨
        ∃ k, ParseInt form.id_expediente = some k ∧ k ≤ 0) →
      (postDocumentos e st c form).1.status = 400 ∧ (postDocumentos e st c form).2 = st) ∧
    (∀ d ∈ (postDocumentos e st c form).2.coll, d ∉ st.coll →
      0 < d.IDExpediente ∧ ParseInt form.id_expediente = some d.IDExpediente ∧
      d.IDCliente = c.id_cliente) := by
  constructor
  · intro hbad
    unfold postDocumentos
    cases hfile : form.file with
    | none => exact ⟨rfl, rfl⟩
    | some fc =>
      obtain ⟨header, content⟩ := fc
      simp only
      by_cases hempty : form.id_expediente = ""
      · rw [if_pos hempty]
        exact ⟨rfl, rfl⟩
      · rw [if_neg hempty]
        rcases hbad with h | h | ⟨k, hk, hle⟩
        · exact absurd h hempty
        · rw [h]
          exact ⟨rfl, rfl⟩
        · rw [hk]
          simp only [hle, if_true]
          exact ⟨trivial, trivial⟩
  · intro d hd hnew
    unfold postDocumentos at hd
    cases hfile : form.file with
    | none => rw [hfile] at hd; exact absurd hd hnew
    | some fc =>
      obtain ⟨header, content⟩ := fc
      rw [hfile] at hd
      simp only at hd
      split at hd
      · exact absurd hd hnew
      · split at hd
        · exact absurd hd hnew
        · rename_i idExp hparse
          split at hd
          · exact absurd hd hnew
          · rename_i hpos
            split at hd
            · exact absurd hd hnew
            · rename_i us hopen
              simp only at hd
              rcases postDocumentosBody_coll e st c.id_cliente idExp header content us d hd
                with h1 | ⟨h1, h2⟩
              · exact absurd h1 hnew
              · rw [h2]
                exact ⟨by omega, hparse, h1⟩

/-- Witness for C6 (amended): an upload whose case id is `0` is refused and nothing is
written. -/
theorem upload_checks_case_id_witness :
    (postDocumentos (Env.calm 50 12 3) sampleStore ⟨7, "CLIENTE"⟩
        ⟨some (⟨"x.pdf", 3⟩, [1, 2, 3]), "0"⟩).1.status = 400 ∧
    (postDocumentos (Env.calm 50 12 3) sampleStore ⟨7, "CLIENTE"⟩
        ⟨some (⟨"x.pdf", 3⟩, [1, 2, 3]), "0"⟩).2 = sampleStore :=
  (upload_checks_case_id (Env.calm 50 12 3) sampleStore ⟨7, "CLIENTE"⟩
    ⟨some (⟨"x.pdf", 3⟩, [1, 2, 3]), "0"⟩).1 (Or.inr (Or.inr ⟨0, by decide, by decide⟩))

/-- C4: the code at a failing input. The metadata insert fails, the rollback `Delete` runs
while the bucket still holds nothing under the new identifier, and the deferred `Close` then
stores the chunk and the files document: once the handler has returned the blob is in the
bucket and a download of its identifier answers 200 with the payload. -/
theorem upload_rollback_undone_by_deferred_close :
    OpenUploadStream envInsertFails "x.pdf" = some sampleStream ∧
    postDocumentosBody envInsertFails sampleStore 7 5 ⟨"x.pdf", 3⟩ [1, 2, 3] sampleStream
      = (⟨500, .error "no se pudo guardar metadatos"⟩, sampleStore,
          { sampleStream with buffer := [1, 2, 3] }) ∧
    (postDocumentos envInsertFails sampleStore ⟨7, "CLIENTE"⟩ sampleForm).1
      = ⟨500, .error "no se pudo guardar metadatos"⟩ ∧
    (postDocumentos envInsertFails sampleStore ⟨7, "CLIENTE"⟩ sampleForm).2
      = { bucket := ⟨sampleStore.bucket.files ++ [⟨12, 3, "x.pdf"⟩],
                     sampleStore.bucket.chunks ++ [⟨12, 0, [1, 2, 3]⟩]⟩,
          coll := sampleStore.coll } ∧
    getDocumento (Env.calm 60 0 0)
        (postDocumentos envInsertFails sampleStore ⟨7, "CLIENTE"⟩ sampleForm).2 hexC
      = ⟨200, .file "attachment; filename=00000000000000000000000c.pdf" [1, 2, 3]⟩ := by
  decide

/-- C5: the code at a failing input. When the handler reaches its `return` the record is
already in the metadata index while the bucket holds nothing under the blob identifier (the
stream is finalised only by the deferred `Close`); and when that `Close` fails the handler
has answered 200, the record is visible and a download of the blob answers 404. -/
theorem upload_inserts_record_before_blob_is_finalised :
    OpenUploadStream (Env.calm 50 12 3) "x.pdf" = some sampleStream ∧
    postDocumentosBody (Env.calm 50 12 3) sampleStore 7 5 ⟨"x.pdf", 3⟩ [1, 2, 3] sampleStream
      = (⟨200, .uploaded hexC "x.pdf" 3 5⟩,
          { bucket := sampleStore.bucket, coll := sampleStore.coll ++ [sampleDocC] },
          { sampleStream with buffer := [1, 2, 3] }) ∧
    (postDocumentos envCloseFails sampleStore ⟨7, "CLIENTE"⟩ sampleForm).1
      = ⟨200, .uploaded hexC "x.pdf" 3 5⟩ ∧
    sampleDocC ∈ (postDocumentos envCloseFails sampleStore ⟨7, "CLIENTE"⟩ sampleForm).2.coll ∧
    ObjectIDFromHex hexC = some sampleDocC.DocID ∧
    getDocumento (Env.calm 60 0 0)
        (postDocumentos envCloseFails sampleStore ⟨7, "CLIENTE"⟩ sampleForm).2 hexC
      = ⟨404, .error "no encontrado"⟩ := by
  decide

end Documentos
